import Mathlib

/-!
Verification development for the `fireschema-ts-admin-runtime` package:
a shallow embedding of `src/baseUpdateBuilder.ts` (the
`AdminBaseUpdateBuilder` and `AdminBaseCollectionRef` classes) and
`src/baseQueryBuilder.ts` (the `AdminBaseQueryBuilder` class), together
with theorems about default-value injection, merge handling, reads,
sub-collection resolution, builder immutability and query realization.

JavaScript runtime values are modelled by the inductive `JSVal`; plain
objects (payloads, accumulated update maps) by insertion-ordered
association lists with JS property-read/property-write semantics
(`Obj.get`, `Obj.setKey`); the Admin SDK `FieldValue` sentinels by
dedicated `JSVal` constructors.
-/

set_option autoImplicit false

namespace Fireschema

/-- A JavaScript runtime value, as far as this library inspects values:
`undefined`, `null`, booleans, numbers, strings, function/constructor
objects (identified by a tag), plus the Admin SDK `FieldValue` sentinels
produced by `FieldValue.serverTimestamp/delete/increment/arrayUnion/arrayRemove`. -/
inductive JSVal : Type where
  | vundef : JSVal
  | vnull : JSVal
  | vbool : Bool → JSVal
  | vnum : Int → JSVal
  | vstr : String → JSVal
  | vfun : Nat → JSVal
  | stServerTimestamp : JSVal
  | stDelete : JSVal
  | stIncrement : Int → JSVal
  | stArrayUnion : List Int → JSVal
  | stArrayRemove : List Int → JSVal
  deriving DecidableEq, Repr

/-- JavaScript truthiness of a modelled value (`if (x)` / `!x`). -/
def JSVal.truthy : JSVal → Bool
  | .vundef => false
  | .vnull => false
  | .vbool b => b
  | .vnum n => n != 0
  | .vstr s => s != ""
  | _ => true

/-- A JavaScript plain object: insertion-ordered own-property list.
Keys are unique in any object actually produced by the JS runtime;
theorems that need uniqueness state it as `(o.map Prod.fst).Nodup`. -/
abbrev Obj : Type := List (String × JSVal)

namespace Obj

/-- Property read `o[k]`: the value of the first binding of `k`,
`undefined` when no binding exists (exactly JS semantics, where a
missing property reads as `undefined`). -/
def get (o : Obj) (k : String) : JSVal :=
  match o.lookup k with
  | some v => v
  | none => JSVal.vundef

/-- `k in o`: whether the key is an own property of the object. -/
def hasKey : Obj → String → Bool
  | [], _ => false
  | p :: t, k => k == p.1 || hasKey t k

/-- Property write `o[k] = v` (also `{...o, [k]: v}`): if `k` is already
a key its binding is updated in place (keeping its position), otherwise
the binding is appended at the end, as JS does. -/
def setKey : Obj → String → JSVal → Obj
  | [], k, v => [(k, v)]
  | p :: t, k, v => if p.1 = k then (k, v) :: t else p :: setKey t k v

/-- The key list of an object. -/
def keys (o : Obj) : List String := o.map Prod.fst

end Obj

/-- `FieldSchema` from `baseUpdateBuilder.ts`: `{ defaultValue?: any }`.
An absent `defaultValue` property reads as `undefined` (`JSVal.vundef`). -/
structure FieldSchema where
  defaultValue : JSVal
  deriving DecidableEq, Repr

/-- `CollectionSchema` from `baseUpdateBuilder.ts`:
`{ fields: Record<string, FieldSchema>, subCollections?: Record<string,
{ schema?: CollectionSchema, collectionClass: any }> }`.
A sub-collection table entry is the pair (optional nested schema,
`collectionClass` value). -/
inductive CollectionSchema : Type where
  | mk :
      (fields : List (String × FieldSchema)) →
      (subCollections : Option (List (String × Option CollectionSchema × JSVal))) →
      CollectionSchema

/-- The `fields` record of a collection schema. -/
def CollectionSchema.fields : CollectionSchema → List (String × FieldSchema)
  | .mk f _ => f

/-- The optional `subCollections` record of a collection schema. -/
def CollectionSchema.subCollections :
    CollectionSchema → Option (List (String × Option CollectionSchema × JSVal))
  | .mk _ s => s

/-- An opaque tag identifying a `Firestore` instance. -/
abbrev FirestoreInst : Type := Nat

/-- A Firestore `DocumentReference`, identified by its path segments. -/
structure DocRef where
  path : List String
  deriving DecidableEq, Repr

/-- A Firestore `CollectionReference`, identified by its path segments. -/
structure CollRef where
  path : List String
  deriving DecidableEq, Repr

/-- `CollectionReference.id`: the last path segment. -/
def CollRef.id (c : CollRef) : String := c.path.getLastD ""

/-- `parentRef.collection(collectionId)`. -/
def DocRef.collection (d : DocRef) (collectionId : String) : CollRef :=
  ⟨d.path ++ [collectionId]⟩

/-- `collectionRef.doc(id)`. -/
def CollRef.doc (c : CollRef) (id : String) : DocRef :=
  ⟨c.path ++ [id]⟩

/-- `firestore.collection(collectionId)`: a root-level collection. -/
def firestoreCollection (_firestore : FirestoreInst) (collectionId : String) :
    CollRef :=
  ⟨[collectionId]⟩

/-- State of an `AdminBaseCollectionRef` instance after construction. -/
structure AdminBaseCollectionRef where
  firestore : FirestoreInst
  collectionId : String
  schema : Option CollectionSchema
  ref : CollRef

/-- The `AdminBaseCollectionRef` constructor: resolves `ref` through the
parent document when `parentRef` is supplied, else through the root
`firestore.collection` lookup. -/
def mkAdminBaseCollectionRef (firestore : FirestoreInst)
    (collectionId : String) (schema : Option CollectionSchema)
    (parentRef : Option DocRef) : AdminBaseCollectionRef :=
  { firestore := firestore
    collectionId := collectionId
    schema := schema
    ref :=
      match parentRef with
      | some p => p.collection collectionId
      | none => firestoreCollection firestore collectionId }

/-- `AdminBaseCollectionRef.doc(id)`. -/
def AdminBaseCollectionRef.doc (self : AdminBaseCollectionRef)
    (id : String) : DocRef :=
  self.ref.doc id

/-- One iteration of the `for (const fieldName in this.schema.fields)`
loop body of `applyDefaults`: assign the server-timestamp sentinel when
`defaultValue === 'serverTimestamp'` and the field reads as `undefined`;
assign any other defined literal default when the field reads as
`undefined`; otherwise leave the accumulator unchanged. -/
def applyDefaultsField (acc : Obj) (fieldName : String)
    (fieldDef : FieldSchema) : Obj :=
  if fieldDef.defaultValue = JSVal.vstr "serverTimestamp"
      ∧ acc.get fieldName = JSVal.vundef then
    acc.setKey fieldName JSVal.stServerTimestamp
  else if fieldDef.defaultValue ≠ JSVal.vundef
      ∧ fieldDef.defaultValue ≠ JSVal.vstr "serverTimestamp"
      ∧ acc.get fieldName = JSVal.vundef then
    acc.setKey fieldName fieldDef.defaultValue
  else
    acc

/-- `applyDefaults` over an optional schema: `{...data}` then the field
loop; when `this.schema` is undefined the data passes through unchanged. -/
def applyDefaultsWith (schema : Option CollectionSchema) (data : Obj) : Obj :=
  match schema with
  | none => data
  | some s => s.fields.foldl (fun acc p => applyDefaultsField acc p.1 p.2) data

/-- `AdminBaseCollectionRef.applyDefaults`. -/
def AdminBaseCollectionRef.applyDefaults (self : AdminBaseCollectionRef)
    (data : Obj) : Obj :=
  applyDefaultsWith self.schema data

/-- The single `this.ref.add(dataToWrite)` store call issued by `add`. -/
structure AddCall where
  target : CollRef
  data : Obj

/-- `AdminBaseCollectionRef.add(data)`: apply defaults, then one
collection-level `add` call. -/
def AdminBaseCollectionRef.add (self : AdminBaseCollectionRef)
    (data : Obj) : AddCall :=
  ⟨self.ref, self.applyDefaults data⟩

/-- Admin SDK `SetOptions` as this code inspects them: the value bound to
a present `merge` property, and a present `mergeFields` property. `none`
models an absent property. -/
structure SetOptions where
  merge : Option JSVal
  mergeFields : Option (List String)
  deriving DecidableEq, Repr

/-- The empty options object `{}` used for `options || {}`. -/
def emptyOptions : SetOptions := ⟨none, none⟩

/-- The `isMerge` test in `AdminBaseCollectionRef.set`:
`options && ('merge' in options && options.merge === true || 'mergeFields' in options)`. -/
def isMerge (options : Option SetOptions) : Bool :=
  match options with
  | none => false
  | some o => (o.merge == some (JSVal.vbool true)) || o.mergeFields.isSome

/-- One `docRef.set(dataToWrite, options)` store call. -/
structure SetCall where
  target : DocRef
  data : Obj
  options : SetOptions
  deriving DecidableEq, Repr

/-- `AdminBaseCollectionRef.set(id, data, options?)`: resolve the doc
reference, apply defaults only when not merging, and issue the single
`docRef.set` call with `options || {}`. -/
def AdminBaseCollectionRef.set (self : AdminBaseCollectionRef) (id : String)
    (data : Obj) (options : Option SetOptions) : List SetCall :=
  let docRef := self.doc id
  let dataToWrite := if !isMerge options then self.applyDefaults data else data
  [⟨docRef, dataToWrite, options.getD emptyOptions⟩]

/-- A `DocumentSnapshot`: its `exists` property and the value returned by
`data()` (`none` models `undefined`). -/
structure DocSnapshot where
  exists_ : Bool
  docData : Option Obj

/-- An opaque store failure (network, permission, quota, ...) carried by a
rejected promise from the underlying client. -/
abbrev StoreErr : Type := Nat

/-- `AdminBaseCollectionRef.get(id)`, parameterized by the behaviour
`fetch` of the underlying `docRef.get()`: a rejection propagates
unchanged, and a fulfilled snapshot resolves to
`snapshot.exists ? snapshot.data() : undefined`. -/
def AdminBaseCollectionRef.get (self : AdminBaseCollectionRef)
    (fetch : DocRef → Except StoreErr DocSnapshot) (id : String) :
    Except StoreErr (Option Obj) :=
  match fetch (self.doc id) with
  | .error e => .error e
  | .ok snapshot => .ok (if snapshot.exists_ then snapshot.docData else none)

/-- The handle instantiated by a successful `subCollection` call:
which constructor was invoked and the four arguments passed to it. -/
structure ConstructedHandle where
  ctor : JSVal
  firestore : FirestoreInst
  collectionId : String
  schema : Option CollectionSchema
  parentRef : Option DocRef

/-- Error message of the schema-lookup failure in `subCollection`. -/
def subColNotFoundMsg (subCollectionId refId : String) : String :=
  "Sub-collection \x27" ++ subCollectionId ++
    "\x27 not found in schema for collection \x27" ++ refId ++ "\x27"

/-- Error message of the missing-constructor failure in `subCollection`. -/
def subColClassMissingMsg (subCollectionId refId : String) : String :=
  "Collection class definition missing for sub-collection \x27" ++
    subCollectionId ++ "\x27 in schema for collection \x27" ++ refId ++ "\x27"

/-- `AdminBaseCollectionRef.subCollection(parentId, subCollectionId,
SubCollectionClass, subSchema?)`. The first component records every
`this.doc(...)` parent-document resolution performed before returning;
the second is the thrown error or the constructed handle. The
`SubCollectionClass` and `subSchema` arguments are part of the source
signature; the body never reads them. -/
def AdminBaseCollectionRef.subCollection (self : AdminBaseCollectionRef)
    (parentId subCollectionId : String) (_SubCollectionClass : JSVal)
    (_subSchema : Option CollectionSchema) :
    List DocRef × Except String ConstructedHandle :=
  match self.schema with
  | none => ([], .error (subColNotFoundMsg subCollectionId self.ref.id))
  | some schema =>
    match schema.subCollections with
    | none => ([], .error (subColNotFoundMsg subCollectionId self.ref.id))
    | some table =>
      match table.lookup subCollectionId with
      | none => ([], .error (subColNotFoundMsg subCollectionId self.ref.id))
      | some subCollectionDef =>
        if subCollectionDef.2.truthy = false then
          ([], .error (subColClassMissingMsg subCollectionId self.ref.id))
        else
          let parentDocRef := self.doc parentId
          ([parentDocRef],
            .ok ⟨subCollectionDef.2, self.firestore, subCollectionId,
              subCollectionDef.1, some parentDocRef⟩)

/-- The sub-collection table entry the guards of `subCollection` look
up: `none` exactly when `!this.schema?.subCollections ||
!this.schema.subCollections[subCollectionId]` holds. -/
def subTableLookup (schema : Option CollectionSchema) (name : String) :
    Option (Option CollectionSchema × JSVal) :=
  match schema with
  | none => none
  | some s =>
    match s.subCollections with
    | none => none
    | some table => table.lookup name

/-- The discriminated constraint-descriptor union of
`baseQueryBuilder.ts` (`QueryConstraintDefinition`): one record per
`where`/`orderBy`/`limit`/`limitToLast`/cursor call, holding exactly the
arguments that were recorded. Field paths may be strings or `FieldPath`
objects, so they are modelled as `JSVal`. -/
inductive QueryConstraintDefinition : Type where
  | whereC (fieldPath : JSVal) (opStr : String) (value : JSVal)
  | orderByC (fieldPath : JSVal) (directionStr : String)
  | limitC (limitCount : Int)
  | limitToLastC (limitCount : Int)
  | startAtC (snapshotOrFieldValue : JSVal) (fieldValues : List JSVal)
  | startAfterC (snapshotOrFieldValue : JSVal) (fieldValues : List JSVal)
  | endAtC (snapshotOrFieldValue : JSVal) (fieldValues : List JSVal)
  | endBeforeC (snapshotOrFieldValue : JSVal) (fieldValues : List JSVal)
  deriving DecidableEq, Repr

/-- State of an `AdminBaseQueryBuilder` instance. `objId` models the
JavaScript object identity of the instance: `Object.create` always
allocates a fresh object, so a call that produces a new builder carries a
fresh `objId`. -/
structure AdminBaseQueryBuilder where
  objId : Nat
  firestore : FirestoreInst
  collectionRef : CollRef
  constraintDefinitions : List QueryConstraintDefinition
  deriving DecidableEq, Repr

/-- `AdminBaseQueryBuilder.addConstraintDefinition`: build a fresh object
(`Object.create` + `Object.assign`, identity `freshId`), then give it the
previous descriptor list with `definition` appended
(`[...this.constraintDefinitions, definition]`). -/
def AdminBaseQueryBuilder.addConstraintDefinition
    (self : AdminBaseQueryBuilder) (definition : QueryConstraintDefinition)
    (freshId : Nat) : AdminBaseQueryBuilder :=
  { self with
    objId := freshId
    constraintDefinitions := self.constraintDefinitions ++ [definition] }

/-- `AdminBaseQueryBuilder._where`. -/
def AdminBaseQueryBuilder.whereM (self : AdminBaseQueryBuilder)
    (fieldPath : JSVal) (opStr : String) (value : JSVal) (freshId : Nat) :
    AdminBaseQueryBuilder :=
  self.addConstraintDefinition (.whereC fieldPath opStr value) freshId

/-- `AdminBaseQueryBuilder.orderBy` (the direction argument defaults to
`'asc'` at call sites that omit it). -/
def AdminBaseQueryBuilder.orderBy (self : AdminBaseQueryBuilder)
    (fieldPath : JSVal) (directionStr : String) (freshId : Nat) :
    AdminBaseQueryBuilder :=
  self.addConstraintDefinition (.orderByC fieldPath directionStr) freshId

/-- `AdminBaseQueryBuilder.limit`. -/
def AdminBaseQueryBuilder.limit (self : AdminBaseQueryBuilder)
    (limitCount : Int) (freshId : Nat) : AdminBaseQueryBuilder :=
  self.addConstraintDefinition (.limitC limitCount) freshId

/-- `AdminBaseQueryBuilder.limitToLast`. -/
def AdminBaseQueryBuilder.limitToLast (self : AdminBaseQueryBuilder)
    (limitCount : Int) (freshId : Nat) : AdminBaseQueryBuilder :=
  self.addConstraintDefinition (.limitToLastC limitCount) freshId

/-- `AdminBaseQueryBuilder.startAt`. -/
def AdminBaseQueryBuilder.startAt (self : AdminBaseQueryBuilder)
    (snapshotOrFieldValue : JSVal) (fieldValues : List JSVal)
    (freshId : Nat) : AdminBaseQueryBuilder :=
  self.addConstraintDefinition (.startAtC snapshotOrFieldValue fieldValues)
    freshId

/-- `AdminBaseQueryBuilder.startAfter`. -/
def AdminBaseQueryBuilder.startAfter (self : AdminBaseQueryBuilder)
    (snapshotOrFieldValue : JSVal) (fieldValues : List JSVal)
    (freshId : Nat) : AdminBaseQueryBuilder :=
  self.addConstraintDefinition (.startAfterC snapshotOrFieldValue fieldValues)
    freshId

/-- `AdminBaseQueryBuilder.endBefore`. -/
def AdminBaseQueryBuilder.endBefore (self : AdminBaseQueryBuilder)
    (snapshotOrFieldValue : JSVal) (fieldValues : List JSVal)
    (freshId : Nat) : AdminBaseQueryBuilder :=
  self.addConstraintDefinition (.endBeforeC snapshotOrFieldValue fieldValues)
    freshId

/-- `AdminBaseQueryBuilder.endAt`. -/
def AdminBaseQueryBuilder.endAt (self : AdminBaseQueryBuilder)
    (snapshotOrFieldValue : JSVal) (fieldValues : List JSVal)
    (freshId : Nat) : AdminBaseQueryBuilder :=
  self.addConstraintDefinition (.endAtC snapshotOrFieldValue fieldValues)
    freshId

/-- The store's native chainable `Query` value, modelled freely: a query
is the collection reference it started from together with the chain of
native method invocations applied to it. -/
inductive AdminQuery : Type where
  | coll (ref : CollRef)
  | whereQ (q : AdminQuery) (fieldPath : JSVal) (opStr : String) (value : JSVal)
  | orderByQ (q : AdminQuery) (fieldPath : JSVal) (directionStr : String)
  | limitQ (q : AdminQuery) (limitCount : Int)
  | limitToLastQ (q : AdminQuery) (limitCount : Int)
  | startAtQ (q : AdminQuery) (snapshotOrFieldValue : JSVal) (fieldValues : List JSVal)
  | startAfterQ (q : AdminQuery) (snapshotOrFieldValue : JSVal) (fieldValues : List JSVal)
  | endAtQ (q : AdminQuery) (snapshotOrFieldValue : JSVal) (fieldValues : List JSVal)
  | endBeforeQ (q : AdminQuery) (snapshotOrFieldValue : JSVal) (fieldValues : List JSVal)
  deriving DecidableEq, Repr

/-- The `switch (def.type)` body of `buildQuery`: apply to `adminQuery`
the native method matching one constraint definition, with the arguments
recorded in that definition. -/
def applyConstraint (adminQuery : AdminQuery) :
    QueryConstraintDefinition → AdminQuery
  | .whereC f o v => .whereQ adminQuery f o v
  | .orderByC f d => .orderByQ adminQuery f d
  | .limitC n => .limitQ adminQuery n
  | .limitToLastC n => .limitToLastQ adminQuery n
  | .startAtC s vs => .startAtQ adminQuery s vs
  | .startAfterC s vs => .startAfterQ adminQuery s vs
  | .endAtC s vs => .endAtQ adminQuery s vs
  | .endBeforeC s vs => .endBeforeQ adminQuery s vs

/-- `AdminBaseQueryBuilder.buildQuery`: start from the collection
reference and fold the recorded constraint definitions over the native
chainable interface via `forEach`. -/
def AdminBaseQueryBuilder.buildQuery (self : AdminBaseQueryBuilder) :
    AdminQuery :=
  self.constraintDefinitions.foldl applyConstraint (.coll self.collectionRef)

/-- One invocation of a native query method, with its arguments. -/
inductive NativeCall : Type where
  | whereN (fieldPath : JSVal) (opStr : String) (value : JSVal)
  | orderByN (fieldPath : JSVal) (directionStr : String)
  | limitN (limitCount : Int)
  | limitToLastN (limitCount : Int)
  | startAtN (snapshotOrFieldValue : JSVal) (fieldValues : List JSVal)
  | startAfterN (snapshotOrFieldValue : JSVal) (fieldValues : List JSVal)
  | endAtN (snapshotOrFieldValue : JSVal) (fieldValues : List JSVal)
  | endBeforeN (snapshotOrFieldValue : JSVal) (fieldValues : List JSVal)
  deriving DecidableEq, Repr

/-- The sequence of native method invocations recorded in a query value,
in the order the store received them. -/
def AdminQuery.calls : AdminQuery → List NativeCall
  | .coll _ => []
  | .whereQ q f o v => q.calls ++ [.whereN f o v]
  | .orderByQ q f d => q.calls ++ [.orderByN f d]
  | .limitQ q n => q.calls ++ [.limitN n]
  | .limitToLastQ q n => q.calls ++ [.limitToLastN n]
  | .startAtQ q s vs => q.calls ++ [.startAtN s vs]
  | .startAfterQ q s vs => q.calls ++ [.startAfterN s vs]
  | .endAtQ q s vs => q.calls ++ [.endAtN s vs]
  | .endBeforeQ q s vs => q.calls ++ [.endBeforeN s vs]

/-- The collection reference a query value was chained from. -/
def AdminQuery.base : AdminQuery → CollRef
  | .coll ref => ref
  | .whereQ q _ _ _ => q.base
  | .orderByQ q _ _ => q.base
  | .limitQ q _ => q.base
  | .limitToLastQ q _ => q.base
  | .startAtQ q _ _ => q.base
  | .startAfterQ q _ _ => q.base
  | .endAtQ q _ _ => q.base
  | .endBeforeQ q _ _ => q.base

/-- The native method invocation a constraint definition stands for:
same kind, same arguments. -/
def nativeCallOf : QueryConstraintDefinition → NativeCall
  | .whereC f o v => .whereN f o v
  | .orderByC f d => .orderByN f d
  | .limitC n => .limitN n
  | .limitToLastC n => .limitToLastN n
  | .startAtC s vs => .startAtN s vs
  | .startAfterC s vs => .startAfterN s vs
  | .endAtC s vs => .endAtN s vs
  | .endBeforeC s vs => .endBeforeN s vs

/-- State of an `AdminBaseUpdateBuilder` instance; `objId` models the
JavaScript object identity exactly as for the query builder. -/
structure AdminBaseUpdateBuilder where
  objId : Nat
  docRef : DocRef
  updateData : Obj
  deriving DecidableEq, Repr

/-- `AdminBaseUpdateBuilder._set`: build a fresh object (identity
`freshId`) whose accumulator is
`{ ...this._updateData, [fieldPath]: value }`. -/
def AdminBaseUpdateBuilder.setOp (self : AdminBaseUpdateBuilder)
    (fieldPath : String) (value : JSVal) (freshId : Nat) :
    AdminBaseUpdateBuilder :=
  { self with
    objId := freshId
    updateData := self.updateData.setKey fieldPath value }

/-- `AdminBaseUpdateBuilder._increment`. -/
def AdminBaseUpdateBuilder.incrementOp (self : AdminBaseUpdateBuilder)
    (fieldPath : String) (value : Int) (freshId : Nat) :
    AdminBaseUpdateBuilder :=
  self.setOp fieldPath (.stIncrement value) freshId

/-- `AdminBaseUpdateBuilder._arrayUnion`. -/
def AdminBaseUpdateBuilder.arrayUnionOp (self : AdminBaseUpdateBuilder)
    (fieldPath : String) (values : List Int) (freshId : Nat) :
    AdminBaseUpdateBuilder :=
  self.setOp fieldPath (.stArrayUnion values) freshId

/-- `AdminBaseUpdateBuilder._arrayRemove`. -/
def AdminBaseUpdateBuilder.arrayRemoveOp (self : AdminBaseUpdateBuilder)
    (fieldPath : String) (values : List Int) (freshId : Nat) :
    AdminBaseUpdateBuilder :=
  self.setOp fieldPath (.stArrayRemove values) freshId

/-- `AdminBaseUpdateBuilder._serverTimestamp`. -/
def AdminBaseUpdateBuilder.serverTimestampOp (self : AdminBaseUpdateBuilder)
    (fieldPath : String) (freshId : Nat) : AdminBaseUpdateBuilder :=
  self.setOp fieldPath .stServerTimestamp freshId

/-- `AdminBaseUpdateBuilder._deleteField`. -/
def AdminBaseUpdateBuilder.deleteFieldOp (self : AdminBaseUpdateBuilder)
    (fieldPath : String) (freshId : Nat) : AdminBaseUpdateBuilder :=
  self.setOp fieldPath .stDelete freshId

/-- One `docRef.update(data)` store call. -/
structure UpdateCall where
  target : DocRef
  data : Obj
  deriving DecidableEq, Repr

/-- What `commit()` resolves to: the `{}` placeholder `WriteResult` on
the empty accumulator, or the outcome of the single `update` call. -/
inductive CommitResult : Type where
  | placeholder
  | writeResult (target : DocRef) (data : Obj)
  deriving DecidableEq, Repr

/-- `AdminBaseUpdateBuilder.commit`: when `Object.keys(this._updateData)`
is empty, no store call and the placeholder resolution; otherwise the
single `this._docRef.update(this._updateData)` call. The first component
is the list of update calls issued. -/
def AdminBaseUpdateBuilder.commit (self : AdminBaseUpdateBuilder) :
    List UpdateCall × CommitResult :=
  if self.updateData.keys.length = 0 then
    ([], .placeholder)
  else
    ([⟨self.docRef, self.updateData⟩],
      .writeResult self.docRef self.updateData)

/-- A chain of `_set` operations (field path, value, fresh identity)
applied in order to a builder. -/
def AdminBaseUpdateBuilder.runSets (self : AdminBaseUpdateBuilder)
    (ops : List (String × JSVal × Nat)) : AdminBaseUpdateBuilder :=
  ops.foldl (fun acc op => acc.setOp op.1 op.2.1 op.2.2) self


namespace Obj

@[simp] theorem get_nil (k : String) : get [] k = JSVal.vundef := rfl

theorem lookup_setKey_self (o : Obj) (k : String) (v : JSVal) :
    (o.setKey k v).lookup k = some v := by
  induction o with
  | nil => simp [setKey]
  | cons p t ih =>
    obtain ⟨pk, pv⟩ := p
    by_cases h : pk = k
    · simp [setKey, h]
    · have hb : (k == pk) = false :=
        beq_eq_false_iff_ne.mpr (fun e => h e.symm)

      simp [setKey, h, List.lookup_cons, hb, ih]

theorem lookup_setKey_ne (o : Obj) (k k' : String) (v : JSVal) (h : k' ≠ k) :
    (o.setKey k v).lookup k' = o.lookup k' := by
  induction o with
  | nil => simp [setKey, List.lookup_cons, beq_eq_false_iff_ne.mpr h]
  | cons p t ih =>
    obtain ⟨pk, pv⟩ := p
    by_cases hp : pk = k
    · subst hp
      have hb : (k' == pk) = false := beq_eq_false_iff_ne.mpr h
      simp [setKey, List.lookup_cons, hb]
    · cases hb : (k' == pk) with
      | true => simp [setKey, hp, List.lookup_cons, hb]
      | false => simp [setKey, hp, List.lookup_cons, hb, ih]

theorem get_setKey_self (o : Obj) (k : String) (v : JSVal) :
    (o.setKey k v).get k = v := by
  unfold get
  rw [lookup_setKey_self]

theorem get_setKey_ne (o : Obj) (k k' : String) (v : JSVal) (h : k' ≠ k) :
    (o.setKey k v).get k' = o.get k' := by
  unfold get
  rw [lookup_setKey_ne o k k' v h]

theorem mem_keys_iff_hasKey (o : Obj) (k : String) :
    k ∈ o.keys ↔ o.hasKey k = true := by
  induction o with
  | nil => simp [keys, hasKey]
  | cons p t ih =>
    obtain ⟨pk, pv⟩ := p
    simp only [keys, List.map_cons, List.mem_cons, hasKey, Bool.or_eq_true,
      beq_iff_eq]
    exact or_congr Iff.rfl ih

theorem keys_setKey (o : Obj) (k : String) (v : JSVal) :
    (o.setKey k v).keys = if o.hasKey k then o.keys else o.keys ++ [k] := by
  induction o with
  | nil => simp [setKey, keys, hasKey]
  | cons p t ih =>
    obtain ⟨pk, pv⟩ := p
    by_cases hp : pk = k
    · subst hp
      simp [setKey, keys, hasKey]
    · have hb : (k == pk) = false := beq_eq_false_iff_ne.mpr (fun e => hp e.symm)
      have ihk : List.map Prod.fst (setKey t k v)
          = if hasKey t k = true then List.map Prod.fst t
            else List.map Prod.fst t ++ [k] := ih
      by_cases ht : hasKey t k <;>
        simp [setKey, hp, keys, hasKey, hb, ihk, ht]

theorem keys_setKey_nodup (o : Obj) (k : String) (v : JSVal)
    (h : o.keys.Nodup) : (o.setKey k v).keys.Nodup := by
  rw [keys_setKey]
  by_cases hk : o.hasKey k
  · simpa [hk] using h
  · have hnm : k ∉ o.keys := by
      rw [mem_keys_iff_hasKey]
      simpa using hk
    simp only [hk, if_false, Bool.false_eq_true]
    refine List.Nodup.append h (by simp) ?_
    intro a ha hb
    simp only [List.mem_singleton] at hb
    subst hb
    exact hnm ha

end Obj
/-- A defaults-loop iteration for another field name leaves a field
read unchanged. -/
theorem applyDefaultsField_get_ne (acc : Obj) (g : String) (fd : FieldSchema)
    (f : String) (h : g ≠ f) :
    (applyDefaultsField acc g fd).get f = acc.get f := by
  unfold applyDefaultsField
  split_ifs with h1 h2
  · exact Obj.get_setKey_ne acc g f JSVal.stServerTimestamp (Ne.symm h)
  · exact Obj.get_setKey_ne acc g f fd.defaultValue (Ne.symm h)
  · rfl

/-- A defaults-loop iteration never changes a field that does not read
as `undefined`. -/
theorem applyDefaultsField_preserves_defined (acc : Obj) (g : String)
    (fd : FieldSchema) (f : String) (h : acc.get f ≠ JSVal.vundef) :
    (applyDefaultsField acc g fd).get f = acc.get f := by
  by_cases hgf : g = f
  · subst hgf
    unfold applyDefaultsField
    split_ifs with h1 h2
    · exact absurd h1.2 h
    · exact absurd h2.2.2 h
    · rfl
  · exact applyDefaultsField_get_ne acc g fd f hgf

/-- The defaults loop never changes a field that does not read as
`undefined` in the accumulator it starts from. -/
theorem foldFields_preserves_defined (fields : List (String × FieldSchema)) :
    ∀ (acc : Obj) (f : String), acc.get f ≠ JSVal.vundef →
      (fields.foldl (fun acc p => applyDefaultsField acc p.1 p.2) acc).get f
        = acc.get f := by
  induction fields with
  | nil => intro acc f _; rfl
  | cons p t ih =>
    intro acc f h
    obtain ⟨g, fd⟩ := p
    have hstep := applyDefaultsField_preserves_defined acc g fd f h
    simp only [List.foldl_cons]
    rw [ih (applyDefaultsField acc g fd) f (by rw [hstep]; exact h), hstep]

/-- A defaults-loop iteration whose field has no configured default
(`defaultValue` reads as `undefined`) is a no-op. -/
theorem applyDefaultsField_undef_default (acc : Obj) (g : String)
    (fd : FieldSchema) (h : fd.defaultValue = JSVal.vundef) :
    applyDefaultsField acc g fd = acc := by
  unfold applyDefaultsField
  split_ifs with h1 h2
  · rw [h] at h1
    exact absurd h1.1 (by decide)
  · exact absurd h h2.1
  · rfl

/-- The defaults loop leaves a field unchanged when no entry of the
field table configures a default for it. -/
theorem foldFields_no_default (fields : List (String × FieldSchema)) :
    ∀ (acc : Obj) (f : String),
      (∀ fd : FieldSchema, (f, fd) ∈ fields → fd.defaultValue = JSVal.vundef) →
      (fields.foldl (fun acc p => applyDefaultsField acc p.1 p.2) acc).get f
        = acc.get f := by
  induction fields with
  | nil => intro acc f _; rfl
  | cons p t ih =>
    intro acc f h
    obtain ⟨g, fd⟩ := p
    simp only [List.foldl_cons]
    by_cases hgf : g = f
    · subst hgf
      rw [applyDefaultsField_undef_default acc g fd (h fd (by simp))]
      exact ih acc g (fun fd2 hm => h fd2 (List.mem_cons_of_mem _ hm))
    · rw [ih (applyDefaultsField acc g fd) f
        (fun fd2 hm => h fd2 (List.mem_cons_of_mem _ hm)),
        applyDefaultsField_get_ne acc g fd f hgf]

/-- The defaults loop assigns the configured default of the first field
table entry for `f` whenever the field reads as `undefined`: the
server-timestamp sentinel for the literal `'serverTimestamp'`, the
configured value otherwise. -/
theorem foldFields_assigns (fields : List (String × FieldSchema)) :
    ∀ (acc : Obj) (f : String) (d : JSVal),
      fields.lookup f = some ⟨d⟩ → d ≠ JSVal.vundef →
      acc.get f = JSVal.vundef →
      (fields.foldl (fun acc p => applyDefaultsField acc p.1 p.2) acc).get f =
        if d = JSVal.vstr "serverTimestamp" then JSVal.stServerTimestamp
        else d := by
  induction fields with
  | nil => intro acc f d hl; cases hl
  | cons p t ih =>
    intro acc f d hl hd hu
    obtain ⟨g, fd⟩ := p
    simp only [List.foldl_cons]
    cases hb : (f == g) with
    | true =>
      have hfg : f = g := by simpa using hb
      subst hfg
      simp only [List.lookup_cons, beq_self_eq_true] at hl
      obtain rfl : fd = ⟨d⟩ := by
        cases hl
        rfl
      by_cases hst : d = JSVal.vstr "serverTimestamp"
      · have hstep : applyDefaultsField acc f ⟨d⟩ =
            acc.setKey f JSVal.stServerTimestamp := by
          unfold applyDefaultsField
          split_ifs with h1 h2
          · rfl
          · exact absurd hst h2.2.1
          · exact absurd ⟨hst, hu⟩ h1
        rw [hstep,
          foldFields_preserves_defined t _ f
            (by rw [Obj.get_setKey_self]; decide),
          Obj.get_setKey_self, if_pos hst]
      · have hstep : applyDefaultsField acc f ⟨d⟩ = acc.setKey f d := by
          unfold applyDefaultsField
          split_ifs with h1 h2
          · exact absurd h1.1 hst
          · rfl
          · exact absurd ⟨hd, hst, hu⟩ h2
        rw [hstep,
          foldFields_preserves_defined t _ f
            (by rw [Obj.get_setKey_self]; exact hd),
          Obj.get_setKey_self, if_neg hst]
    | false =>
      have hfg : f ≠ g := by simpa using hb
      simp only [List.lookup_cons, hb] at hl
      exact ih (applyDefaultsField acc g fd) f d hl hd
        (by rw [applyDefaultsField_get_ne acc g fd f (Ne.symm hfg)]; exact hu)

/-- No defaults-loop iteration can produce the literal string
`'serverTimestamp'` at a field: it was already there. -/
theorem applyDefaultsField_vstrST_source (acc : Obj) (g : String)
    (fd : FieldSchema) (f : String)
    (h : (applyDefaultsField acc g fd).get f =
      JSVal.vstr "serverTimestamp") :
    acc.get f = JSVal.vstr "serverTimestamp" := by
  by_cases hgf : g = f
  · subst hgf
    unfold applyDefaultsField at h
    split_ifs at h with h1 h2
    · rw [Obj.get_setKey_self] at h
      cases h
    · rw [Obj.get_setKey_self] at h
      exact absurd h h2.2.1
    · exact h
  · rw [applyDefaultsField_get_ne acc g fd f hgf] at h
    exact h

/-- The defaults loop can only output the literal string
`'serverTimestamp'` at a field if the input already held it there. -/
theorem foldFields_vstrST_source (fields : List (String × FieldSchema)) :
    ∀ (acc : Obj) (f : String),
      (fields.foldl (fun acc p => applyDefaultsField acc p.1 p.2) acc).get f =
        JSVal.vstr "serverTimestamp" →
      acc.get f = JSVal.vstr "serverTimestamp" := by
  induction fields with
  | nil => intro acc f h; exact h
  | cons p t ih =>
    intro acc f h
    obtain ⟨g, fd⟩ := p
    simp only [List.foldl_cons] at h
    exact applyDefaultsField_vstrST_source acc g fd f (ih _ f h)

/-- Association-list lookup distributes over append. -/
theorem lookup_append_or (l1 l2 : Obj) (k : String) :
    (l1 ++ l2).lookup k = Option.or (l1.lookup k) (l2.lookup k) := by
  induction l1 with
  | nil => simp
  | cons p t ih =>
    obtain ⟨pk, pv⟩ := p
    cases hb : (k == pk) with
    | true => simp [List.lookup_cons, hb]
    | false => simp [List.lookup_cons, hb, ih]

/-- A property write behaves like prepending a one-binding override for
lookups. -/
theorem setKey_lookup_or (o : Obj) (q : String) (v : JSVal) (p : String) :
    (o.setKey q v).lookup p =
      Option.or (([(q, v)] : Obj).lookup p) (o.lookup p) := by
  by_cases hpq : p = q
  · subst hpq
    simp [Obj.lookup_setKey_self, List.lookup_cons]
  · simp [Obj.lookup_setKey_ne o q p v hpq, List.lookup_cons,
      beq_eq_false_iff_ne.mpr hpq]

/-- A chain of `_set` calls accumulates a map in which each field path
holds the value of the LAST operation recorded for it; paths never
touched keep the value they had in the starting builder. -/
theorem runSets_lookup (ops : List (String × JSVal × Nat)) :
    ∀ (u : AdminBaseUpdateBuilder) (p : String),
      (u.runSets ops).updateData.lookup p =
        Option.or (((ops.map fun op => (op.1, op.2.1)).reverse : Obj).lookup p)
          (u.updateData.lookup p) := by
  induction ops with
  | nil =>
    intro u p
    simp [AdminBaseUpdateBuilder.runSets]
  | cons op rest ih =>
    intro u p
    obtain ⟨q, v, fid⟩ := op
    have hstep : u.runSets ((q, v, fid) :: rest) =
        (u.setOp q v fid).runSets rest := rfl
    rw [hstep, ih (u.setOp q v fid) p]
    have hdata : (u.setOp q v fid).updateData = u.updateData.setKey q v := rfl
    rw [hdata, setKey_lookup_or]
    simp only [List.map_cons, List.reverse_cons]
    rw [lookup_append_or]
    cases ((rest.map fun op => (op.1, op.2.1)).reverse : Obj).lookup p <;>
      simp [Option.or]

/-- A chain of `_set` calls preserves uniqueness of the field paths of
the accumulated map. -/
theorem runSets_keys_nodup (ops : List (String × JSVal × Nat)) :
    ∀ (u : AdminBaseUpdateBuilder), u.updateData.keys.Nodup →
      (u.runSets ops).updateData.keys.Nodup := by
  induction ops with
  | nil => intro u h; exact h
  | cons op rest ih =>
    intro u h
    obtain ⟨q, v, fid⟩ := op
    exact ih (u.setOp q v fid) (Obj.keys_setKey_nodup _ q v h)

/-- One `switch` arm of `buildQuery` invokes exactly the native method
matching the descriptor, with the recorded arguments, on top of the
calls already made. -/
theorem applyConstraint_calls (q : AdminQuery) (c : QueryConstraintDefinition) :
    (applyConstraint q c).calls = q.calls ++ [nativeCallOf c] := by
  cases c <;> rfl

/-- One `switch` arm of `buildQuery` keeps the base collection
reference. -/
theorem applyConstraint_base (q : AdminQuery) (c : QueryConstraintDefinition) :
    (applyConstraint q c).base = q.base := by
  cases c <;> rfl

/-- Folding descriptors over the chainable interface appends exactly
their native calls, in order. -/
theorem foldl_applyConstraint_calls (cs : List QueryConstraintDefinition) :
    ∀ q : AdminQuery,
      (cs.foldl applyConstraint q).calls = q.calls ++ cs.map nativeCallOf := by
  induction cs with
  | nil => intro q; simp
  | cons c rest ih =>
    intro q
    simp only [List.foldl_cons, List.map_cons]
    rw [ih (applyConstraint q c), applyConstraint_calls]
    simp

/-- Folding descriptors over the chainable interface keeps the base
collection reference. -/
theorem foldl_applyConstraint_base (cs : List QueryConstraintDefinition) :
    ∀ q : AdminQuery, (cs.foldl applyConstraint q).base = q.base := by
  induction cs with
  | nil => intro q; rfl
  | cons c rest ih =>
    intro q
    simp only [List.foldl_cons]
    rw [ih (applyConstraint q c), applyConstraint_base]

/-- The `isMerge` test of `set` holds exactly when options are present
and either bind `merge` to the boolean `true` or carry a `mergeFields`
property. -/
theorem isMerge_spec (options : Option SetOptions) :
    isMerge options = true ↔
      ∃ o, options = some o ∧
        (o.merge = some (JSVal.vbool true) ∨ o.mergeFields ≠ none) := by
  cases options with
  | none => simp [isMerge]
  | some o =>
    simp [isMerge, beq_iff_eq, Option.isSome_iff_ne_none]

/-- C1 (amended): `applyDefaults` — used by `add` and by non-merge
`set` — fills a field exactly when that field READS AS `undefined` in
the caller payload (key absent, or key explicitly bound to `undefined`):
(1) a field whose caller-supplied value is not `undefined` — including
explicit `null` and every other falsy value except `undefined` itself —
reaches the write unchanged; (2) when the field reads as `undefined` and
the field table configures a defined default, that default is assigned
(resolved to the server-timestamp sentinel for the literal string
`'serverTimestamp'`); (3) a field for which no entry configures a
default is never touched. The claim as frozen is refuted by
`c1_applyDefaults_counterexample`: a key present in the payload but
explicitly bound to `undefined` (a falsy caller-supplied value) is
overwritten by the configured default. -/
theorem applyDefaults_only_fills_undefined (schema : CollectionSchema)
    (data : Obj) (f : String) :
    (data.get f ≠ JSVal.vundef →
      (applyDefaultsWith (some schema) data).get f = data.get f)
  ∧ (∀ d : JSVal, schema.fields.lookup f = some ⟨d⟩ → d ≠ JSVal.vundef →
      data.get f = JSVal.vundef →
      (applyDefaultsWith (some schema) data).get f =
        if d = JSVal.vstr "serverTimestamp" then JSVal.stServerTimestamp
        else d)
  ∧ ((∀ fd : FieldSchema, (f, fd) ∈ schema.fields →
        fd.defaultValue = JSVal.vundef) →
      (applyDefaultsWith (some schema) data).get f = data.get f) := by
  refine ⟨?_, ?_, ?_⟩
  · intro h
    exact foldFields_preserves_defined schema.fields data f h
  · intro d hl hd hu
    exact foldFields_assigns schema.fields data f d hl hd hu
  · intro h
    exact foldFields_no_default schema.fields data f h

/-- C1 witness: on schema `{status: {defaultValue: "inactive"}}`,
a caller-supplied `status` survives, an absent `status` receives the
default, and a field with no default stays absent. -/
theorem applyDefaults_only_fills_undefined_witness :
    (applyDefaultsWith
        (some (CollectionSchema.mk [("status", ⟨JSVal.vstr "inactive"⟩)] none))
        [("status", JSVal.vnull)]).get "status" = JSVal.vnull
  ∧ (applyDefaultsWith
        (some (CollectionSchema.mk [("status", ⟨JSVal.vstr "inactive"⟩)] none))
        [("name", JSVal.vstr "x")]).get "status" = JSVal.vstr "inactive"
  ∧ (applyDefaultsWith
        (some (CollectionSchema.mk [("status", ⟨JSVal.vstr "inactive"⟩)] none))
        [("name", JSVal.vstr "x")]).get "other" = JSVal.vundef := by
  refine ⟨?_, ?_, ?_⟩
  · exact ((applyDefaults_only_fills_undefined
      (CollectionSchema.mk [("status", ⟨JSVal.vstr "inactive"⟩)] none)
      [("status", JSVal.vnull)] "status").1 (by decide)).trans (by decide)
  · exact ((applyDefaults_only_fills_undefined
      (CollectionSchema.mk [("status", ⟨JSVal.vstr "inactive"⟩)] none)
      [("name", JSVal.vstr "x")] "status").2.1
      (JSVal.vstr "inactive") (by decide) (by decide) (by decide)).trans
      (by decide)
  · exact ((applyDefaults_only_fills_undefined
      (CollectionSchema.mk [("status", ⟨JSVal.vstr "inactive"⟩)] none)
      [("name", JSVal.vstr "x")] "other").2.2
      (by intro fd hm; simp [CollectionSchema.fields] at hm)).trans
      (by decide)

/-- C1 counterexample to the claim as frozen: the payload
`{status: undefined}` HAS the field `status` (`'status' in payload` is
true) with the caller-supplied falsy value `undefined`, yet
`applyDefaults` under schema `{status: {defaultValue: "inactive"}}`
overwrites it with `"inactive"`, so a field present in the payload does
NOT always reach the write unchanged. -/
theorem c1_applyDefaults_counterexample :
    Obj.hasKey [("status", JSVal.vundef)] "status" = true
  ∧ (applyDefaultsWith
        (some (CollectionSchema.mk [("status", ⟨JSVal.vstr "inactive"⟩)] none))
        [("status", JSVal.vundef)]).get "status" = JSVal.vstr "inactive"
  ∧ (applyDefaultsWith
        (some (CollectionSchema.mk [("status", ⟨JSVal.vstr "inactive"⟩)] none))
        [("status", JSVal.vundef)]).get "status" ≠
      Obj.get [("status", JSVal.vundef)] "status" := by
  refine ⟨rfl, by decide, by decide⟩

/-- C2: `set(id, data, options)` skips default injection exactly when
the options request a merge (boolean `merge` flag strictly equal to
`true`, or a `mergeFields` property present); otherwise it injects
defaults exactly as `add` does; in either case it issues exactly one
write call on the resolved document reference with `options || {}`. -/
theorem set_merge_behaviour (self : AdminBaseCollectionRef) (id : String)
    (data : Obj) (options : Option SetOptions) :
    (isMerge options = true →
      self.set id data options =
        [⟨self.doc id, data, options.getD emptyOptions⟩])
  ∧ (isMerge options = false →
      self.set id data options =
        [⟨self.doc id, (self.add data).data, options.getD emptyOptions⟩])
  ∧ (self.set id data options).length = 1
  ∧ (isMerge options = true ↔
      ∃ o, options = some o ∧
        (o.merge = some (JSVal.vbool true) ∨ o.mergeFields ≠ none)) := by
  refine ⟨?_, ?_, rfl, isMerge_spec options⟩
  · intro h
    simp [AdminBaseCollectionRef.set, h]
  · intro h
    simp [AdminBaseCollectionRef.set, h, AdminBaseCollectionRef.add]

/-- C2 witness: on schema `{score: {defaultValue: 0}}`,
`set(d1, {score: 5}, {merge: true})` writes exactly `{score: 5}`, while
`set(d1, {name: "x"})` injects the default `score: 0`. -/
theorem set_merge_behaviour_witness :
    AdminBaseCollectionRef.set
        ⟨0, "items", some (.mk [("score", ⟨JSVal.vnum 0⟩)] none), ⟨["items"]⟩⟩
        "d1" [("score", JSVal.vnum 5)]
        (some ⟨some (JSVal.vbool true), none⟩) =
      [⟨⟨["items", "d1"]⟩, [("score", JSVal.vnum 5)],
        ⟨some (JSVal.vbool true), none⟩⟩]
  ∧ AdminBaseCollectionRef.set
        ⟨0, "items", some (.mk [("score", ⟨JSVal.vnum 0⟩)] none), ⟨["items"]⟩⟩
        "d1" [("name", JSVal.vstr "x")] none =
      [⟨⟨["items", "d1"]⟩, [("name", JSVal.vstr "x"), ("score", JSVal.vnum 0)],
        ⟨none, none⟩⟩] := by
  constructor
  · exact ((set_merge_behaviour
      ⟨0, "items", some (.mk [("score", ⟨JSVal.vnum 0⟩)] none), ⟨["items"]⟩⟩
      "d1" [("score", JSVal.vnum 5)]
      (some ⟨some (JSVal.vbool true), none⟩)).1 (by decide)).trans (by decide)
  · exact ((set_merge_behaviour
      ⟨0, "items", some (.mk [("score", ⟨JSVal.vnum 0⟩)] none), ⟨["items"]⟩⟩
      "d1" [("name", JSVal.vstr "x")] none).2.1 (by decide)).trans (by decide)

/-- C3: `get(id)` resolves to the decoded document data when the fetched
snapshot exists, resolves to the absent-value sentinel `undefined`
(`Except.ok none`) — never an error — when the snapshot does not exist,
and only store failures themselves surface as errors (propagated
unchanged), so absence and failure are never conflated. -/
theorem get_absent_is_not_error (self : AdminBaseCollectionRef)
    (fetch : DocRef → Except StoreErr DocSnapshot) (id : String) :
    (∀ snapshot, fetch (self.doc id) = .ok snapshot →
      snapshot.exists_ = true → self.get fetch id = .ok snapshot.docData)
  ∧ (∀ snapshot, fetch (self.doc id) = .ok snapshot →
      snapshot.exists_ = false → self.get fetch id = .ok none)
  ∧ (∀ e, fetch (self.doc id) = .error e →
      self.get fetch id = .error e) := by
  refine ⟨?_, ?_, ?_⟩
  · intro s hf he
    simp [AdminBaseCollectionRef.get, hf, he]
  · intro s hf he
    simp [AdminBaseCollectionRef.get, hf, he]
  · intro e hf
    simp [AdminBaseCollectionRef.get, hf]

/-- C3 witness: with a store whose fetch fulfills with a non-existent
snapshot, `get` resolves to the absent sentinel, not an error. -/
theorem get_absent_is_not_error_witness :
    AdminBaseCollectionRef.get ⟨0, "users", none, ⟨["users"]⟩⟩
      (fun _ => Except.ok ⟨false, none⟩) "u1" = Except.ok none :=
  (get_absent_is_not_error _ _ _).2.1 ⟨false, none⟩ rfl rfl

/-- C4: `subCollection` fails synchronously — issuing NO parent document
resolution (empty resolution trace) — with the schema-lookup error when
the schema has no sub-collection table entry for the name, and with the
missing-constructor error when the entry's `collectionClass` is falsy;
both messages contain the sub-collection name and the collection id. -/
theorem subCollection_config_errors (self : AdminBaseCollectionRef)
    (parentId subCollectionId : String) (cls : JSVal)
    (subSchema : Option CollectionSchema) :
    (subTableLookup self.schema subCollectionId = none →
      self.subCollection parentId subCollectionId cls subSchema =
        ([], .error (subColNotFoundMsg subCollectionId self.ref.id)))
  ∧ (∀ entry, subTableLookup self.schema subCollectionId = some entry →
      entry.2.truthy = false →
      self.subCollection parentId subCollectionId cls subSchema =
        ([], .error (subColClassMissingMsg subCollectionId self.ref.id)))
  ∧ (∃ pre mid post, subColNotFoundMsg subCollectionId self.ref.id =
      pre ++ subCollectionId ++ mid ++ self.ref.id ++ post)
  ∧ (∃ pre mid post, subColClassMissingMsg subCollectionId self.ref.id =
      pre ++ subCollectionId ++ mid ++ self.ref.id ++ post) := by
  refine ⟨?_, ?_, ⟨_, _, _, rfl⟩, ⟨_, _, _, rfl⟩⟩
  · intro h
    rcases hs : self.schema with _ | s
    · simp [AdminBaseCollectionRef.subCollection, hs]
    · rcases hsc : s.subCollections with _ | table
      · simp [AdminBaseCollectionRef.subCollection, hs, hsc]
      · have hl : table.lookup subCollectionId = none := by
          simpa [subTableLookup, hs, hsc] using h
        simp [AdminBaseCollectionRef.subCollection, hs, hsc, hl]
  · intro entry h ht
    rcases hs : self.schema with _ | s
    · exfalso
      simp [subTableLookup, hs] at h
    · rcases hsc : s.subCollections with _ | table
      · exfalso
        simp [subTableLookup, hs, hsc] at h
      · have hl : table.lookup subCollectionId = some entry := by
          simpa [subTableLookup, hs, hsc] using h
        simp [AdminBaseCollectionRef.subCollection, hs, hsc, hl, ht]

/-- C4 witness: on a handle with no schema, `subCollection` returns the
schema-lookup error with an empty resolution trace. -/
theorem subCollection_config_errors_witness :
    AdminBaseCollectionRef.subCollection ⟨0, "users", none, ⟨["users"]⟩⟩
      "u1" "posts" (JSVal.vfun 1) none =
      ([], .error (subColNotFoundMsg "posts" "users")) :=
  (subCollection_config_errors _ _ _ _ _).1 rfl

/-- C9: when `subCollection` succeeds, the handle is instantiated from
the constructor REGISTERED in the schema's sub-collection table entry —
the `SubCollectionClass` argument (`cls`) and the `subSchema` argument
are universally quantified here and absent from the result — and that
constructor receives the firestore instance, the sub-collection id, the
schema from the table entry, and the parent document reference resolved
for `parentId`. -/
theorem subCollection_uses_registered_class (self : AdminBaseCollectionRef)
    (parentId subCollectionId : String) (cls : JSVal)
    (subSchema : Option CollectionSchema)
    (entry : Option CollectionSchema × JSVal)
    (h : subTableLookup self.schema subCollectionId = some entry)
    (ht : entry.2.truthy = true) :
    self.subCollection parentId subCollectionId cls subSchema =
      ([self.doc parentId],
        .ok ⟨entry.2, self.firestore, subCollectionId, entry.1,
          some (self.doc parentId)⟩) := by
  rcases hs : self.schema with _ | s
  · exfalso
    simp [subTableLookup, hs] at h
  · rcases hsc : s.subCollections with _ | table
    · exfalso
      simp [subTableLookup, hs, hsc] at h
    · have hl : table.lookup subCollectionId = some entry := by
        simpa [subTableLookup, hs, hsc] using h
      simp [AdminBaseCollectionRef.subCollection, hs, hsc, hl, ht]

/-- C9 witness: the registered constructor (tag 3) is instantiated even
though a different constructor (tag 99) was passed as the argument. -/
theorem subCollection_uses_registered_class_witness :
    AdminBaseCollectionRef.subCollection
      ⟨7, "users", some (.mk [] (some [("posts", (none, JSVal.vfun 3))])),
        ⟨["users"]⟩⟩
      "u1" "posts" (JSVal.vfun 99) none =
      ([⟨["users", "u1"]⟩],
        .ok ⟨JSVal.vfun 3, 7, "posts", none, some ⟨["users", "u1"]⟩⟩) :=
  subCollection_uses_registered_class _ "u1" "posts" (JSVal.vfun 99) none
    (none, JSVal.vfun 3) rfl rfl

/-- C5: every constraint- or operation-adding call on a builder returns
a DISTINCT instance (fresh object identity) holding the previous
descriptor sequence plus one appended descriptor (query builder),
respectively the previous map with one overridden binding (update
builder), while every other attribute is carried over; the embedding is
pure, so the original builder value is untouched by producing the new
one and remains valid and usable. -/
theorem builder_chain_immutable :
    (∀ (b : AdminBaseQueryBuilder) (d : QueryConstraintDefinition)
        (freshId : Nat), freshId ≠ b.objId →
      b.addConstraintDefinition d freshId ≠ b
      ∧ (b.addConstraintDefinition d freshId).constraintDefinitions =
          b.constraintDefinitions ++ [d]
      ∧ (b.addConstraintDefinition d freshId).collectionRef = b.collectionRef
      ∧ (b.addConstraintDefinition d freshId).firestore = b.firestore)
  ∧ (∀ (u : AdminBaseUpdateBuilder) (p : String) (v : JSVal)
        (freshId : Nat), freshId ≠ u.objId →
      u.setOp p v freshId ≠ u
      ∧ (u.setOp p v freshId).updateData = u.updateData.setKey p v
      ∧ (u.setOp p v freshId).docRef = u.docRef) := by
  constructor
  · intro b d freshId h
    refine ⟨?_, rfl, rfl, rfl⟩
    intro he
    exact h (congrArg AdminBaseQueryBuilder.objId he)
  · intro u p v freshId h
    refine ⟨?_, rfl, rfl⟩
    intro he
    exact h (congrArg AdminBaseUpdateBuilder.objId he)

/-- C5 witness: a concrete constraint-adding call and a concrete
operation-adding call each return an instance distinct from the
original. -/
theorem builder_chain_immutable_witness :
    AdminBaseQueryBuilder.addConstraintDefinition ⟨0, 0, ⟨["c"]⟩, []⟩
      (.limitC 5) 1 ≠ ⟨0, 0, ⟨["c"]⟩, []⟩
  ∧ AdminBaseUpdateBuilder.setOp ⟨0, ⟨["c", "d1"]⟩, []⟩ "count"
      (JSVal.vnum 1) 1 ≠ ⟨0, ⟨["c", "d1"]⟩, []⟩ :=
  ⟨(builder_chain_immutable.1 ⟨0, 0, ⟨["c"]⟩, []⟩ (.limitC 5) 1
      (by decide)).1,
    (builder_chain_immutable.2 ⟨0, ⟨["c", "d1"]⟩, []⟩ "count"
      (JSVal.vnum 1) 1 (by decide)).1⟩

/-- C6: `buildQuery` starts from the collection reference and replays
the recorded descriptor sequence in insertion order against the native
chainable interface: the realized query's native-call trace is exactly
the descriptor list mapped to native calls of the same kind with the
same arguments. -/
theorem buildQuery_replays_in_order (b : AdminBaseQueryBuilder) :
    (b.buildQuery).calls = b.constraintDefinitions.map nativeCallOf
  ∧ (b.buildQuery).base = b.collectionRef := by
  constructor
  · unfold AdminBaseQueryBuilder.buildQuery
    rw [foldl_applyConstraint_calls]
    simp [AdminQuery.calls]
  · unfold AdminBaseQueryBuilder.buildQuery
    rw [foldl_applyConstraint_base]
    rfl

/-- C7: within one builder chain, a later `_set` on the same field path
overwrites an earlier one: the accumulated map holds, for every path,
exactly the value of the LAST operation recorded for it (untouched paths
keep their starting value), and path uniqueness of the map is preserved,
so the committed map has exactly one entry per field path and operations
are never merged. -/
theorem update_last_write_wins (u : AdminBaseUpdateBuilder)
    (ops : List (String × JSVal × Nat)) (p : String) :
    (u.updateData.keys.Nodup → (u.runSets ops).updateData.keys.Nodup)
  ∧ (u.runSets ops).updateData.lookup p =
      Option.or (((ops.map fun op => (op.1, op.2.1)).reverse : Obj).lookup p)
        (u.updateData.lookup p) :=
  ⟨fun h => runSets_keys_nodup ops u h, runSets_lookup ops u p⟩

/-- C7 witness: `setField("count", 1)` then `setField("count", 2)`
leaves a single-entry map binding `count` to `2`. -/
theorem update_last_write_wins_witness :
    (AdminBaseUpdateBuilder.runSets ⟨0, ⟨["c", "d1"]⟩, []⟩
        [("count", JSVal.vnum 1, 1), ("count", JSVal.vnum 2, 2)]
      ).updateData.keys.Nodup
  ∧ (AdminBaseUpdateBuilder.runSets ⟨0, ⟨["c", "d1"]⟩, []⟩
        [("count", JSVal.vnum 1, 1), ("count", JSVal.vnum 2, 2)]
      ).updateData.lookup "count" = some (JSVal.vnum 2) :=
  ⟨(update_last_write_wins ⟨0, ⟨["c", "d1"]⟩, []⟩
      [("count", JSVal.vnum 1, 1), ("count", JSVal.vnum 2, 2)] "count").1
      (by simp [Obj.keys]),
    ((update_last_write_wins ⟨0, ⟨["c", "d1"]⟩, []⟩
      [("count", JSVal.vnum 1, 1), ("count", JSVal.vnum 2, 2)] "count").2
      ).trans (by decide)⟩

/-- C8: `commit()` on a builder whose accumulated map is empty performs
zero update calls and resolves with the placeholder result (no error);
on a non-empty map it issues exactly one update call carrying the full
accumulated map and returns the store's write outcome. -/
theorem commit_empty_is_no_op (u : AdminBaseUpdateBuilder) :
    (u.updateData = [] → u.commit = ([], .placeholder))
  ∧ (u.updateData ≠ [] →
      u.commit = ([⟨u.docRef, u.updateData⟩],
        .writeResult u.docRef u.updateData)) := by
  constructor
  · intro h
    unfold AdminBaseUpdateBuilder.commit
    rw [h]
    rfl
  · intro h
    have hlen : ¬(u.updateData.keys.length = 0) := by
      intro h0
      have hnil : u.updateData.length = 0 := by
        simpa [Obj.keys] using h0
      exact h (List.length_eq_zero.mp hnil)
    simp [AdminBaseUpdateBuilder.commit, hlen]

/-- C8 witness: committing an empty builder issues no call and resolves
with the placeholder; committing a one-entry builder issues exactly the
one update call with that map. -/
theorem commit_empty_is_no_op_witness :
    AdminBaseUpdateBuilder.commit ⟨0, ⟨["c", "d1"]⟩, []⟩ = ([], .placeholder)
  ∧ AdminBaseUpdateBuilder.commit ⟨0, ⟨["c", "d1"]⟩, [("a", JSVal.vnum 1)]⟩ =
      ([⟨⟨["c", "d1"]⟩, [("a", JSVal.vnum 1)]⟩],
        .writeResult ⟨["c", "d1"]⟩ [("a", JSVal.vnum 1)]) :=
  ⟨(commit_empty_is_no_op ⟨0, ⟨["c", "d1"]⟩, []⟩).1 rfl,
    (commit_empty_is_no_op ⟨0, ⟨["c", "d1"]⟩, [("a", JSVal.vnum 1)]⟩).2
      (by decide)⟩

/-- C10: when a field's configured `defaultValue` is the exact string
`'serverTimestamp'` and the field reads as `undefined` in the payload,
`applyDefaults` installs the server-timestamp sentinel, not that string;
and the output of `applyDefaults` can only hold the literal string
`'serverTimestamp'` at a field if the caller payload already did, so
that string can never act as a plain literal default. -/
theorem serverTimestamp_default_is_sentinel (schema : CollectionSchema)
    (data : Obj) (f : String) :
    (schema.fields.lookup f = some ⟨JSVal.vstr "serverTimestamp"⟩ →
      data.get f = JSVal.vundef →
      (applyDefaultsWith (some schema) data).get f =
        JSVal.stServerTimestamp)
  ∧ ((applyDefaultsWith (some schema) data).get f =
        JSVal.vstr "serverTimestamp" →
      data.get f = JSVal.vstr "serverTimestamp") := by
  constructor
  · intro hl hu
    have hres := foldFields_assigns schema.fields data f
      (JSVal.vstr "serverTimestamp") hl (by decide) hu
    simpa using hres
  · intro h
    exact foldFields_vstrST_source schema.fields data f h

/-- C10 witness: schema `{createdAt: {defaultValue: "serverTimestamp"}}`
on a payload without `createdAt` installs the sentinel. -/
theorem serverTimestamp_default_is_sentinel_witness :
    (applyDefaultsWith
        (some (CollectionSchema.mk
          [("createdAt", ⟨JSVal.vstr "serverTimestamp"⟩)] none))
        [("name", JSVal.vstr "x")]).get "createdAt" =
      JSVal.stServerTimestamp :=
  (serverTimestamp_default_is_sentinel
    (CollectionSchema.mk [("createdAt", ⟨JSVal.vstr "serverTimestamp"⟩)] none)
    [("name", JSVal.vstr "x")] "createdAt").1 (by decide) (by decide)
